import Mathlib

set_option maxRecDepth 100000

/-!
Shallow embedding of `contracts/Lottery.sol` (the "Nebula Lottery" contract).

Modelling conventions:
* `uint256` values are `Nat`.  Solidity ^0.8 checked arithmetic reverts on
  overflow; all quantities manipulated by the contract (ticket counts ≤ 100,
  series ids, token amounts) stay far below `2^256` in any reachable state, so
  overflow is not modelled.  The one place where bit-width matters, the packed
  ticket id `(seriesId << 128) | ticketNumber`, is kept in its exact source
  form and reasoned about with the hypothesis `ticketNumber < 2^128`.
* `address` is `Nat`, with `0` playing the role of `address(0)`.
* The USDT token is external to the repository; the spec treats it as an
  opaque, fallible service, so it is modelled as an abstract state type `T`
  with `balanceOf` and a fallible `transfer` (`none` = the call returned
  `false`).  A failed token call makes the enclosing function revert.
* A Solidity `revert` is an `Except.error`; the EVM rolls the whole
  transaction back, which `execTotal` models by keeping the pre-state.
* `keccak256(abi.encodePacked(..))` is an abstract function
  `List Nat → Nat` (one entry per packed argument).
* The unbounded `while` loop of `_generateWinningNumbers` is given explicit
  fuel; running out of fuel corresponds to the transaction exhausting gas
  (error `OutOfGas`).  `Panic` models an EVM array-bounds panic.
-/

namespace Lottery

abbrev Addr := Nat

/-- Abstract interface of the external payment token (IERC20): `balanceOf`
and a fallible `transfer`; `transfer t fromA toA amt = none` models the call
returning `false`. `transferFrom(buyer, this, v)` is `transfer t buyer self v`. -/
structure TokenOps (T : Type) where
  balanceOf : T → Addr → Nat
  transfer : T → Addr → Addr → Nat → Option T

/-- `uint256 public constant TICKETS_PER_SERIES = 100`. -/
def TICKETS_PER_SERIES : Nat := 100

/-- `uint256 public constant DRAW_THRESHOLD = 90`. -/
def DRAW_THRESHOLD : Nat := 90

/-- `uint256 public constant WINNING_TICKETS_COUNT = 10`. -/
def WINNING_TICKETS_COUNT : Nat := 10

/-- The `Series` struct. -/
structure Series where
  totalTickets : Nat := 0
  ticketsSold : Nat := 0
  winningTicketNumbers : List Nat := []
  drawExecuted : Bool := false
  drawRandomSeed : Nat := 0
deriving Repr, DecidableEq, Inhabited

/-- Contract storage.  Solidity mappings are total functions with the zero
value as default. -/
structure LotteryState where
  owner : Addr
  ticketPrice : Nat
  ticketsSold : Nat
  totalSeriesCount : Nat
  rewardPerUser : Nat
  seriesInfo : Nat → Series
  ticketBalances : Addr → Nat
  ticketOwners : Nat → Addr
  ticketSeries : Nat → Nat
  ownedTicketIds : Addr → List Nat
  rewardsDistributed : Nat → Bool

/-- The contract's custom errors, plus `OutOfGas` (gas exhaustion of the
unbounded generation loop) and `Panic` (EVM array-bounds panic), which are
EVM-level reverts without a declared error type. -/
inductive Err where
  | InvalidAddress
  | InvalidTicketCount
  | NotOwner
  | TransferFailed
  | InsufficientTickets
  | InvalidTicketNumber
  | TicketAlreadySold (ticketNumber : Nat)
  | SeriesNotCompleted (seriesId : Nat)
  | RewardsAlreadyDistributed (seriesId : Nat)
  | InsufficientWinners (seriesId : Nat)
  | InvalidSeriesId (seriesId : Nat)
  | SeriesNotReadyForDraw (seriesId : Nat)
  | DrawNotExecuted (seriesId : Nat)
  | DrawAlreadyExecuted (seriesId : Nat)
  | NotEnoughTicketsSold (seriesId : Nat)
  | OutOfGas
  | Panic
deriving Repr, DecidableEq

/-- `(seriesId << 128) | ticketNumber`, the packed ticket identity. -/
def ticketId (seriesId ticketNumber : Nat) : Nat :=
  (seriesId <<< 128) ||| ticketNumber

/-- The constructor: `owner = msg.sender`, `ticketPrice = 0.11 * 10 ** 18`,
`rewardPerUser = 1`, all mappings empty.  (The non-zero check on the token
address concerns the token's identity, which is abstracted away here.) -/
def initState (deployer : Addr) : LotteryState where
  owner := deployer
  ticketPrice := 11 * 10 ^ 16
  ticketsSold := 0
  totalSeriesCount := 0
  rewardPerUser := 1
  seriesInfo := fun _ => default
  ticketBalances := fun _ => 0
  ticketOwners := fun _ => 0
  ticketSeries := fun _ => 0
  ownedTicketIds := fun _ => []
  rewardsDistributed := fun _ => false

/-- `_validateTicketNumbers`: every number must be in `[1, totalTickets]`;
returns the sanitized copy. -/
def validateTicketNumbers (ticketNumbers : List Nat) (totalTickets : Nat) :
    Except Err (List Nat) :=
  match ticketNumbers with
  | [] => .ok []
  | n :: rest =>
    if n = 0 ∨ n > totalTickets then .error .InvalidTicketNumber
    else
      match validateTicketNumbers rest totalTickets with
      | .error e => .error e
      | .ok l => .ok (n :: l)

/-- `_mintTickets`: for each number, check range and that the packed id is
unowned, then record owner, series and the buyer's owned-id list entry.
Returns the updated state and the minted ids. -/
def mintTickets (buyer : Addr) (seriesId totalTicketsInSeries : Nat)
    (ticketNumbers : List Nat) (s : LotteryState) :
    Except Err (LotteryState × List Nat) :=
  match ticketNumbers with
  | [] => .ok (s, [])
  | n :: rest =>
    if n = 0 ∨ n > totalTicketsInSeries then .error .InvalidTicketNumber
    else
      let tid := ticketId seriesId n
      if s.ticketOwners tid ≠ 0 then .error (.TicketAlreadySold n)
      else
        let s' : LotteryState :=
          { s with
            ticketOwners := Function.update s.ticketOwners tid buyer
            ticketSeries := Function.update s.ticketSeries tid seriesId
            ownedTicketIds := Function.update s.ownedTicketIds buyer
              (s.ownedTicketIds buyer ++ [tid]) }
        match mintTickets buyer seriesId totalTicketsInSeries rest s' with
        | .error e => .error e
        | .ok (s'', ids) => .ok (s'', tid :: ids)

/-- The payment step of `_completePurchase`: `transferFrom(buyer, this,
totalCost)` is attempted only when `totalCost > 0`. -/
def collectPayment {T : Type} (tok : TokenOps T) (self buyer : Addr)
    (totalCost : Nat) (t : T) : Option T :=
  if 0 < totalCost then tok.transfer t buyer self totalCost else some t

/-- `_completePurchase`: mint, bump the sold counters and the buyer's ticket
balance, then collect `ticketPrice * count`; a failed `transferFrom` reverts
the whole purchase. -/
def completePurchase {T : Type} (tok : TokenOps T) (self buyer : Addr)
    (seriesId : Nat) (ticketNumbers : List Nat) (s : LotteryState) (t : T) :
    Except Err (LotteryState × T) :=
  let count := ticketNumbers.length
  let totalCost := s.ticketPrice * count
  match mintTickets buyer seriesId (s.seriesInfo seriesId).totalTickets
      ticketNumbers s with
  | .error e => .error e
  | .ok (s1, _ids) =>
    let ser := s1.seriesInfo seriesId
    let s2 : LotteryState :=
      { s1 with
        seriesInfo := Function.update s1.seriesInfo seriesId
          { ser with ticketsSold := ser.ticketsSold + count }
        ticketsSold := s1.ticketsSold + count
        ticketBalances := Function.update s1.ticketBalances buyer
          (s1.ticketBalances buyer + count) }
    match collectPayment tok self buyer totalCost t with
    | none => .error .TransferFailed
    | some t' => .ok (s2, t')

/-- `buyTickets(seriesId, count)`: sequential numbers starting at
`ticketsSold + 1`. -/
def buyTickets {T : Type} (tok : TokenOps T) (self sender : Addr)
    (seriesId count : Nat) (s : LotteryState) (t : T) :
    Except Err (LotteryState × T) :=
  if count = 0 then .error .InvalidTicketCount
  else if seriesId = 0 ∨ seriesId > s.totalSeriesCount then
    .error (.InvalidSeriesId seriesId)
  else
    let currentSeries := s.seriesInfo seriesId
    if currentSeries.drawExecuted then .error (.SeriesNotCompleted seriesId)
    else
      let remaining := currentSeries.totalTickets - currentSeries.ticketsSold
      if count > remaining then .error .InsufficientTickets
      else
        let startNumber := currentSeries.ticketsSold + 1
        let ticketNumbers := (List.range count).map (fun i => startNumber + i)
        completePurchase tok self sender seriesId ticketNumbers s t

/-- `buyTicketsAt(seriesId, ticketNumbers)`: caller-chosen numbers, validated
then minted. -/
def buyTicketsAt {T : Type} (tok : TokenOps T) (self sender : Addr)
    (seriesId : Nat) (ticketNumbers : List Nat) (s : LotteryState) (t : T) :
    Except Err (LotteryState × T) :=
  let count := ticketNumbers.length
  if count = 0 then .error .InvalidTicketCount
  else if seriesId = 0 ∨ seriesId > s.totalSeriesCount then
    .error (.InvalidSeriesId seriesId)
  else
    let currentSeries := s.seriesInfo seriesId
    if currentSeries.drawExecuted then .error (.SeriesNotCompleted seriesId)
    else
      let remaining := currentSeries.totalTickets - currentSeries.ticketsSold
      if count > remaining then .error .InsufficientTickets
      else
        match validateTicketNumbers ticketNumbers currentSeries.totalTickets with
        | .error e => .error e
        | .ok sanitized => completePurchase tok self sender seriesId sanitized s t

/-- The inner collision-retry loop of `_generateWinningNumbers`:
`while (used[ticketNumber] && attempts < 200)`.  `rem` counts the attempts
still allowed (entered with `rem = 200, attempts = 0`; the loop body steps to
`rem - 1, attempts + 1`, so `attempts < 200` is exactly `rem > 0`).  The set
of already-chosen numbers is the list `picked` (`used[t]` = `picked.contains
t`); a successful pick appends and breaks.  Returns (seed, ticketNumber,
picked). -/
def innerRetry (keccak : List Nat → Nat) (soldCount count : Nat) :
    Nat → Nat → Nat → Nat → List Nat → Nat × Nat × List Nat
  | 0, _attempts, seed, t, picked => (seed, t, picked)
  | rem + 1, attempts, seed, t, picked =>
    if picked.contains t then
      let seed' := keccak [seed, count, attempts, soldCount]
      let t' := seed' % TICKETS_PER_SERIES + 1
      if picked.contains t' then
        innerRetry keccak soldCount count rem (attempts + 1) seed' t' picked
      else (seed', t', picked ++ [t'])
    else (seed, t, picked)

/-- The outer `while (count < WINNING_TICKETS_COUNT)` loop of
`_generateWinningNumbers`, with explicit fuel (`none` = the loop has not
finished within `fuel` iterations).  Each pass hashes `(seed, count)`, takes
the value if unused, and — whenever `count` is still short — runs the inner
retry loop, which the source always enters (the current `ticketNumber` is
used either way). -/
def genLoop (keccak : List Nat → Nat) (soldCount : Nat) :
    Nat → Nat → List Nat → Option (List Nat)
  | 0, _seed, _picked => none
  | fuel + 1, seed, picked =>
    if picked.length ≥ WINNING_TICKETS_COUNT then some picked
    else
      let seed1 := keccak [seed, picked.length]
      let t1 := seed1 % TICKETS_PER_SERIES + 1
      let picked1 := if picked.contains t1 then picked else picked ++ [t1]
      if picked1.length < WINNING_TICKETS_COUNT then
        let r := innerRetry keccak soldCount picked1.length 200 0 seed1 t1 picked1
        genLoop keccak soldCount fuel r.1 r.2.2
      else
        genLoop keccak soldCount fuel seed1 picked1

/-- `_generateWinningNumbers(randomSeed, soldCount)`. -/
def generateWinningNumbers (keccak : List Nat → Nat)
    (randomSeed soldCount fuel : Nat) : Option (List Nat) :=
  genLoop keccak soldCount fuel randomSeed []

/-- `executeDraw(seriesId)`: admin-gated, one-shot; derives the seed from
environment values `(blockhash(block.number-1), timestamp, prevrandao,
msg.sender, seriesId, ticketsSold)` and commits seed, winning numbers and the
`drawExecuted` flag together. -/
def executeDraw (keccak : List Nat → Nat) (bh ts prevrandao : Nat)
    (sender : Addr) (seriesId : Nat) (s : LotteryState) (fuel : Nat) :
    Except Err LotteryState :=
  if sender ≠ s.owner then .error .NotOwner
  else if seriesId = 0 ∨ seriesId > s.totalSeriesCount then
    .error (.InvalidSeriesId seriesId)
  else
    let currentSeries := s.seriesInfo seriesId
    if currentSeries.ticketsSold < DRAW_THRESHOLD then
      .error (.NotEnoughTicketsSold seriesId)
    else if currentSeries.drawExecuted then
      .error (.DrawAlreadyExecuted seriesId)
    else
      let randomSeed :=
        keccak [bh, ts, prevrandao, sender, seriesId, currentSeries.ticketsSold]
      match generateWinningNumbers keccak randomSeed
          currentSeries.ticketsSold fuel with
      | none => .error .OutOfGas
      | some winningNumbers =>
        .ok { s with
          seriesInfo := Function.update s.seriesInfo seriesId
            { currentSeries with
              drawRandomSeed := randomSeed
              winningTicketNumbers := winningNumbers
              drawExecuted := true } }

/-- The winner-collection loop of `distributeRewards`: owners of winning
tickets, in order, skipping `address(0)`; writing past the fixed-size
10-element `winners` array is an EVM panic. -/
def collectWinners (s : LotteryState) (seriesId : Nat) :
    List Nat → List Addr → Except Err (List Addr)
  | [], acc => .ok acc
  | n :: rest, acc =>
    let o := s.ticketOwners (ticketId seriesId n)
    if o ≠ 0 then
      if acc.length < WINNING_TICKETS_COUNT then
        collectWinners s seriesId rest (acc ++ [o])
      else .error .Panic
    else collectWinners s seriesId rest acc

/-- The payout loop of `distributeRewards`: one `transfer` per winning ticket
(skipped when the recipient is zero or the reward is zero); any failed
transfer reverts.  Also returns the list of performed transfers
`(recipient, amount)`. -/
def payWinners {T : Type} (tok : TokenOps T) (self : Addr)
    (rewardPerWinner : Nat) :
    List Addr → T → Option (T × List (Addr × Nat))
  | [], t => some (t, [])
  | w :: ws, t =>
    if w ≠ 0 ∧ 0 < rewardPerWinner then
      match tok.transfer t self w rewardPerWinner with
      | none => none
      | some t' =>
        match payWinners tok self rewardPerWinner ws t' with
        | none => none
        | some (t'', log) => some (t'', (w, rewardPerWinner) :: log)
    else payWinners tok self rewardPerWinner ws t

/-- `distributeRewards(seriesId)` with the performed transfers made explicit
in the result. -/
def distributeRewardsCore {T : Type} (tok : TokenOps T) (self sender : Addr)
    (seriesId : Nat) (s : LotteryState) (t : T) :
    Except Err (LotteryState × T × List (Addr × Nat)) :=
  if sender ≠ s.owner then .error .NotOwner
  else if seriesId = 0 ∨ seriesId > s.totalSeriesCount then
    .error (.InvalidSeriesId seriesId)
  else
    let currentSeries := s.seriesInfo seriesId
    if currentSeries.drawExecuted = false then .error (.DrawNotExecuted seriesId)
    else if s.rewardsDistributed seriesId then
      .error (.RewardsAlreadyDistributed seriesId)
    else
      match collectWinners s seriesId currentSeries.winningTicketNumbers [] with
      | .error e => .error e
      | .ok winners =>
        if winners.length = 0 then .error (.InsufficientWinners seriesId)
        else
          let totalRewardPool := currentSeries.ticketsSold * s.ticketPrice
          let rewardPerWinner := s.rewardPerUser * 10 ^ 18
          let contractBalance := tok.balanceOf t self
          let rpw :=
            if contractBalance < totalRewardPool then
              contractBalance / WINNING_TICKETS_COUNT
            else rewardPerWinner
          match payWinners tok self rpw winners t with
          | none => .error .TransferFailed
          | some (t', log) =>
            .ok ({ s with
              rewardsDistributed :=
                Function.update s.rewardsDistributed seriesId true }, t', log)

/-- `setTicketPrice(newTicketPrice)`. -/
def setTicketPrice (sender : Addr) (newTicketPrice : Nat) (s : LotteryState) :
    Except Err LotteryState :=
  if sender ≠ s.owner then .error .NotOwner
  else .ok { s with ticketPrice := newTicketPrice }

/-- `setReward(newReward)` — note the source assigns `ticketPrice`, not
`rewardPerUser`. -/
def setReward (sender : Addr) (newReward : Nat) (s : LotteryState) :
    Except Err LotteryState :=
  if sender ≠ s.owner then .error .NotOwner
  else .ok { s with ticketPrice := newReward }

/-- `transferOwnership(newOwner)`. -/
def transferOwnership (sender newOwner : Addr) (s : LotteryState) :
    Except Err LotteryState :=
  if sender ≠ s.owner then .error .NotOwner
  else if newOwner = 0 then .error .InvalidAddress
  else .ok { s with owner := newOwner }

/-- `transferFunds(to, amount)`. -/
def transferFunds {T : Type} (tok : TokenOps T) (self sender dest : Addr)
    (amount : Nat) (s : LotteryState) (t : T) :
    Except Err (LotteryState × T) :=
  if sender ≠ s.owner then .error .NotOwner
  else if dest = 0 then .error .InvalidAddress
  else
    match tok.transfer t self dest amount with
    | none => .error .TransferFailed
    | some t' => .ok (s, t')

/-- `generateSeries()`: allocates the next id and initializes the struct
fields the source assigns (`totalTickets`, `ticketsSold`, `drawExecuted`). -/
def generateSeries (sender : Addr) (s : LotteryState) :
    Except Err LotteryState :=
  if sender ≠ s.owner then .error .NotOwner
  else
    let newId := s.totalSeriesCount + 1
    .ok { s with
      totalSeriesCount := newId
      seriesInfo := Function.update s.seriesInfo newId
        { s.seriesInfo newId with
          totalTickets := TICKETS_PER_SERIES
          ticketsSold := 0
          drawExecuted := false } }

/-- One external transaction against the contract. -/
inductive Op where
  | setTicketPrice (sender : Addr) (newTicketPrice : Nat)
  | setReward (sender : Addr) (newReward : Nat)
  | transferOwnership (sender newOwner : Addr)
  | transferFunds (sender dest : Addr) (amount : Nat)
  | generateSeries (sender : Addr)
  | executeDraw (sender : Addr) (seriesId bh ts prevrandao fuel : Nat)
  | distributeRewards (sender : Addr) (seriesId : Nat)
  | buyTickets (sender : Addr) (seriesId count : Nat)
  | buyTicketsAt (sender : Addr) (seriesId : Nat) (ticketNumbers : List Nat)

/-- Transaction semantics: dispatch to the entry points. -/
def step {T : Type} (keccak : List Nat → Nat) (tok : TokenOps T) (self : Addr)
    (op : Op) (w : LotteryState × T) : Except Err (LotteryState × T) :=
  match op with
  | .setTicketPrice sender p =>
    (setTicketPrice sender p w.1).map (fun s' => (s', w.2))
  | .setReward sender r =>
    (setReward sender r w.1).map (fun s' => (s', w.2))
  | .transferOwnership sender newOwner =>
    (transferOwnership sender newOwner w.1).map (fun s' => (s', w.2))
  | .transferFunds sender dest amount =>
    transferFunds tok self sender dest amount w.1 w.2
  | .generateSeries sender =>
    (generateSeries sender w.1).map (fun s' => (s', w.2))
  | .executeDraw sender seriesId bh ts pr fuel =>
    (executeDraw keccak bh ts pr sender seriesId w.1 fuel).map
      (fun s' => (s', w.2))
  | .distributeRewards sender seriesId =>
    (distributeRewardsCore tok self sender seriesId w.1 w.2).map
      (fun r => (r.1, r.2.1))
  | .buyTickets sender seriesId count =>
    buyTickets tok self sender seriesId count w.1 w.2
  | .buyTicketsAt sender seriesId ns =>
    buyTicketsAt tok self sender seriesId ns w.1 w.2

/-- Committed effect of a transaction: a revert leaves the world unchanged
(the EVM rolls everything back, including token-state changes). -/
def execTotal {T : Type} (keccak : List Nat → Nat) (tok : TokenOps T)
    (self : Addr) (op : Op) (w : LotteryState × T) : LotteryState × T :=
  match step keccak tok self op w with
  | .error _ => w
  | .ok w' => w'

/-- States reachable from deployment by any sequence of committed
transactions. -/
inductive Reachable {T : Type} (keccak : List Nat → Nat) (tok : TokenOps T)
    (self : Addr) : LotteryState × T → Prop where
  | init (deployer : Addr) (t0 : T) : Reachable keccak tok self (initState deployer, t0)
  | next (op : Op) {w : LotteryState × T} :
      Reachable keccak tok self w →
      Reachable keccak tok self (execTotal keccak tok self op w)

/-- A concrete ERC20-style token: a balance map; `transfer` succeeds exactly
when the source balance suffices. -/
def natToken : TokenOps (Addr → Nat) where
  balanceOf := fun t a => t a
  transfer := fun t fromA toA amt =>
    if amt ≤ t fromA then
      some (Function.update (Function.update t fromA (t fromA - amt)) toA
        (Function.update t fromA (t fromA - amt) toA + amt))
    else none

/-- A token whose transfers always succeed (used to exhibit ledger-level
counterexamples independent of payment behavior). -/
def freeToken : TokenOps Unit where
  balanceOf := fun _ _ => 0
  transfer := fun _ _ _ _ => some ()

/-- A degenerate hash function: every draw collides after the first pick. -/
def zeroHash : List Nat → Nat := fun _ => 0

/-- A hash whose two-argument form `(seed, count)` returns `count` (a fresh
number each outer pass) and whose four-argument collision form returns `0`
(always the already-used number `1`): every inner retry burst exhausts its
200 attempts, yet the generator still finishes. -/
def demoHash : List Nat → Nat := fun l =>
  if l.length = 4 then 0 else l.getD 1 0

/-- Spec-side description of the "resolved" winning tickets of a series: the
owner of each winning ticket number, in draw order, skipping numbers that
were never sold.  (Proved below to coincide with the source's
winner-collection loop.) -/
def resolvedWinners (s : LotteryState) (seriesId : Nat) : List Addr :=
  ((s.seriesInfo seriesId).winningTicketNumbers.map
    (fun n => s.ticketOwners (ticketId seriesId n))).filter (fun a => a ≠ 0)

/-- The two invariants established by induction over reachable states:
`rewardPerUser` keeps its initial value `1`, and no series ever oversells. -/
def GoodState (s : LotteryState) : Prop :=
  s.rewardPerUser = 1 ∧
  ∀ seriesId, (s.seriesInfo seriesId).ticketsSold
    ≤ (s.seriesInfo seriesId).totalTickets

/-! ### Concrete demonstration worlds (used by witnesses and counterexamples).
Convention: deployer/admin is address `1` (or `7`), the contract itself is
address `9`, buyers are `5` and `6`. -/

/-- Fresh world: deployed by `1`, one empty series generated. -/
def freshW : LotteryState × Unit :=
  execTotal zeroHash freeToken 9 (.generateSeries 1) (initState 1, ())

/-- World in which ticket number 2 of series 1 was bought by address `5`
through `buyTicketsAt` (every token transfer succeeds). -/
def cxW : LotteryState × Unit :=
  execTotal zeroHash freeToken 9 (.buyTicketsAt 5 1 [2]) freshW

/-- A draw-ready state owned by `7`: series 1 with 90 of 100 tickets sold. -/
def drawState : LotteryState :=
  { initState 7 with
    totalSeriesCount := 1
    seriesInfo := Function.update (fun _ => default) 1
      { totalTickets := 100, ticketsSold := 90 } }

/-- The state produced by the demo draw on `drawState`. -/
def drawOutState : LotteryState :=
  match executeDraw demoHash 0 0 0 7 1 drawState 11 with
  | .ok s' => s'
  | .error _ => drawState

/-- A drawn, not-yet-distributed state owned by `1`: winning numbers 1..10,
ticket number 5 owned by address `2`, everything else unsold. -/
def distState : LotteryState :=
  { initState 1 with
    totalSeriesCount := 1
    seriesInfo := Function.update (fun _ => default) 1
      { totalTickets := 100, ticketsSold := 90,
        winningTicketNumbers := [1, 2, 3, 4, 5, 6, 7, 8, 9, 10],
        drawExecuted := true, drawRandomSeed := 77 }
    ticketOwners := Function.update (fun _ => 0) (ticketId 1 5) 2 }

/-- Escrow balance of only 50 wei — far below the nominal reward pool. -/
def distTok : Addr → Nat := fun a => if a = 9 then 50 else 0

/-- Result of distributing the underfunded rewards of `distState`. -/
def distOut : Except Err (LotteryState × (Addr → Nat) × List (Addr × Nat)) :=
  distributeRewardsCore natToken 9 1 1 distState distTok

def distOutState : LotteryState :=
  match distOut with
  | .ok r => r.1
  | .error _ => distState

def distOutTok : Addr → Nat :=
  match distOut with
  | .ok r => r.2.1
  | .error _ => distTok

def distOutLog : List (Addr × Nat) :=
  match distOut with
  | .ok r => r.2.2
  | .error _ => []

/-- A settled state: rewards of series 1 already distributed. -/
def distDoneState : LotteryState :=
  { distState with rewardsDistributed := Function.update (fun _ => false) 1 true }

/-- Token map with no balances at all: every positive transfer fails. -/
def emptyTok : Addr → Nat := fun _ => 0

/-! ### Basic lemmas about the packed ticket identity -/

theorem ticketId_eq (seriesId : Nat) {n : Nat} (h : n < 2 ^ 128) :
    ticketId seriesId n = 2 ^ 128 * seriesId + n := by
  unfold ticketId
  rw [Nat.shiftLeft_eq, Nat.mul_comm seriesId]
  exact (Nat.mul_add_lt_is_or h seriesId).symm

theorem ticketId_inj (seriesId : Nat) {n m : Nat} (hn : n < 2 ^ 128)
    (hm : m < 2 ^ 128) (h : ticketId seriesId n = ticketId seriesId m) :
    n = m := by
  rw [ticketId_eq seriesId hn, ticketId_eq seriesId hm] at h
  omega

/-! ### Lemmas about `validateTicketNumbers` -/

theorem validateTicketNumbers_ok_sound :
    ∀ {ns : List Nat} {total : Nat} {l : List Nat},
    validateTicketNumbers ns total = .ok l →
    l = ns ∧ ∀ n ∈ ns, 1 ≤ n ∧ n ≤ total := by
  intro ns
  induction ns with
  | nil =>
    intro total l h
    simp only [validateTicketNumbers] at h
    cases h
    simp
  | cons n rest ih =>
    intro total l h
    simp only [validateTicketNumbers] at h
    split at h
    · cases h
    · rename_i hcond
      split at h
      · cases h
      · rename_i l' hrec
        cases h
        obtain ⟨hl, hall⟩ := ih hrec
        subst hl
        refine ⟨rfl, ?_⟩
        intro m hm
        rcases List.mem_cons.mp hm with hm | hm
        · subst hm; omega
        · exact hall m hm

/-! ### Lemmas about `mintTickets` -/

theorem mintTickets_preserves :
    ∀ {ns : List Nat} {buyer seriesId total : Nat} {s s' : LotteryState}
      {ids : List Nat},
    mintTickets buyer seriesId total ns s = .ok (s', ids) →
    s'.owner = s.owner ∧ s'.ticketPrice = s.ticketPrice ∧
    s'.ticketsSold = s.ticketsSold ∧
    s'.totalSeriesCount = s.totalSeriesCount ∧
    s'.rewardPerUser = s.rewardPerUser ∧ s'.seriesInfo = s.seriesInfo ∧
    s'.ticketBalances = s.ticketBalances ∧
    s'.rewardsDistributed = s.rewardsDistributed := by
  intro ns
  induction ns with
  | nil =>
    intro buyer seriesId total s s' ids h
    simp only [mintTickets] at h
    cases h
    exact ⟨rfl, rfl, rfl, rfl, rfl, rfl, rfl, rfl⟩
  | cons n rest ih =>
    intro buyer seriesId total s s' ids h
    simp only [mintTickets] at h
    split at h
    · cases h
    · split at h
      · cases h
      · split at h
        · cases h
        · rename_i s'' ids' hrec
          cases h
          obtain ⟨p1, p2, p3, p4, p5, p6, p7, p8⟩ := ih hrec
          exact ⟨p1, p2, p3, p4, p5, p6, p7, p8⟩

theorem mintTickets_ok_sound :
    ∀ {ns : List Nat} {buyer seriesId total : Nat} {s s' : LotteryState}
      {ids : List Nat},
    mintTickets buyer seriesId total ns s = .ok (s', ids) →
    ∀ n ∈ ns, 1 ≤ n ∧ n ≤ total ∧ s.ticketOwners (ticketId seriesId n) = 0 := by
  intro ns
  induction ns with
  | nil => intro _ _ _ _ _ _ _ n hn; cases hn
  | cons n rest ih =>
    intro buyer seriesId total s s' ids h
    simp only [mintTickets] at h
    split at h
    · cases h
    · rename_i hrange
      split at h
      · cases h
      · rename_i howned
        split at h
        · cases h
        · rename_i s'' ids' hrec
          cases h
          intro m hm
          rcases List.mem_cons.mp hm with hm | hm
          · subst hm
            push_neg at howned
            exact ⟨by omega, by omega, howned⟩
          · obtain ⟨h1, h2, h3⟩ := ih hrec m hm
            refine ⟨h1, h2, ?_⟩
            by_cases hk : ticketId seriesId m = ticketId seriesId n
            · rw [hk]; push_neg at howned; exact howned
            · have h3' : Function.update s.ticketOwners (ticketId seriesId n)
                  buyer (ticketId seriesId m) = 0 := h3
              rw [Function.update_noteq hk] at h3'
              exact h3'

theorem mintTickets_ok_of {buyer seriesId total : Nat}
    (htot : total < 2 ^ 128) :
    ∀ (ns : List Nat) (s : LotteryState),
    (∀ n ∈ ns, 1 ≤ n ∧ n ≤ total) →
    (∀ n ∈ ns, s.ticketOwners (ticketId seriesId n) = 0) →
    ns.Nodup →
    ∃ s', mintTickets buyer seriesId total ns s
        = .ok (s', ns.map (ticketId seriesId)) ∧
      (∀ n ∈ ns, s'.ticketOwners (ticketId seriesId n) = buyer) ∧
      (∀ k, (∀ n ∈ ns, k ≠ ticketId seriesId n) →
        s'.ticketOwners k = s.ticketOwners k) := by
  intro ns
  induction ns with
  | nil =>
    intro s hrange hfree hnd
    exact ⟨s, rfl, by simp, fun k _ => rfl⟩
  | cons n rest ih =>
    intro s hrange hfree hnd
    have hn := hrange n (List.mem_cons_self n rest)
    have hfn := hfree n (List.mem_cons_self n rest)
    have hnotin : n ∉ rest := (List.nodup_cons.mp hnd).1
    have hndrest : rest.Nodup := (List.nodup_cons.mp hnd).2
    have hinj : ∀ m ∈ rest, ticketId seriesId m ≠ ticketId seriesId n := by
      intro m hm heq
      have hmr := hrange m (List.mem_cons_of_mem n hm)
      have := ticketId_inj seriesId (by omega) (by omega) heq
      exact hnotin (this ▸ hm)
    obtain ⟨s'', hmint, hown, hni⟩ := ih
      { s with
        ticketOwners := Function.update s.ticketOwners (ticketId seriesId n) buyer
        ticketSeries := Function.update s.ticketSeries (ticketId seriesId n) seriesId
        ownedTicketIds := Function.update s.ownedTicketIds buyer
          (s.ownedTicketIds buyer ++ [ticketId seriesId n]) }
      (fun m hm => hrange m (List.mem_cons_of_mem n hm))
      (fun m hm => by
        show Function.update s.ticketOwners (ticketId seriesId n) buyer
          (ticketId seriesId m) = 0
        rw [Function.update_noteq (hinj m hm)]
        exact hfree m (List.mem_cons_of_mem n hm))
      hndrest
    refine ⟨s'', ?_, ?_, ?_⟩
    · simp only [mintTickets]
      rw [if_neg (by omega), if_neg (by simp [hfn]), hmint]
      simp
    · intro m hm
      rcases List.mem_cons.mp hm with hm | hm
      · subst hm
        rw [hni (ticketId seriesId m) (fun p hp h => hinj p hp h.symm)]
        show Function.update s.ticketOwners (ticketId seriesId m) buyer
          (ticketId seriesId m) = buyer
        rw [Function.update_same]
      · exact hown m hm
    · intro k hk
      rw [hni k (fun p hp => hk p (List.mem_cons_of_mem n hp))]
      show Function.update s.ticketOwners (ticketId seriesId n) buyer k
        = s.ticketOwners k
      rw [Function.update_noteq (hk n (List.mem_cons_self n rest))]

theorem mintTickets_error_of_bad {buyer seriesId total : Nat}
    {ns : List Nat} {s : LotteryState}
    (hbad : ∃ n ∈ ns, n = 0 ∨ n > total ∨ s.ticketOwners (ticketId seriesId n) ≠ 0) :
    ∃ e, mintTickets buyer seriesId total ns s = .error e := by
  cases hm : mintTickets buyer seriesId total ns s with
  | error e => exact ⟨e, rfl⟩
  | ok p =>
    exfalso
    obtain ⟨s1, ids⟩ := p
    obtain ⟨n, hn, hbad⟩ := hbad
    obtain ⟨h1, h2, h3⟩ := mintTickets_ok_sound hm n hn
    rcases hbad with h | h | h
    · omega
    · omega
    · exact h h3

/-! ### Lemmas about `completePurchase` -/

theorem completePurchase_ok_spec {T : Type} {tok : TokenOps T}
    {self buyer : Addr} {seriesId : Nat} {ns : List Nat}
    {s s' : LotteryState} {t t' : T}
    (h : completePurchase tok self buyer seriesId ns s t = .ok (s', t')) :
    s'.owner = s.owner ∧ s'.ticketPrice = s.ticketPrice ∧
    s'.rewardPerUser = s.rewardPerUser ∧
    s'.totalSeriesCount = s.totalSeriesCount ∧
    s'.rewardsDistributed = s.rewardsDistributed ∧
    s'.ticketsSold = s.ticketsSold + ns.length ∧
    s'.seriesInfo = Function.update s.seriesInfo seriesId
      { s.seriesInfo seriesId with
        ticketsSold := (s.seriesInfo seriesId).ticketsSold + ns.length } := by
  simp only [completePurchase] at h
  split at h
  · cases h
  · rename_i s1 ids hmint
    obtain ⟨p1, p2, p3, p4, p5, p6, p7, p8⟩ := mintTickets_preserves hmint
    split at h
    · cases h
    · rename_i t'' hpay
      cases h
      refine ⟨p1, p2, p5, p4, p8, ?_, ?_⟩
      · show s1.ticketsSold + ns.length = s.ticketsSold + ns.length
        rw [p3]
      · show Function.update s1.seriesInfo seriesId
          { s1.seriesInfo seriesId with
            ticketsSold := (s1.seriesInfo seriesId).ticketsSold + ns.length } = _
        rw [p6]

/-! ### Generic helper -/

theorem exceptMap_ok {α β : Type} {f : α → β} {x : Except Err α} {b : β}
    (h : Except.map f x = .ok b) : ∃ a, x = .ok a ∧ b = f a := by
  cases x with
  | error e => simp [Except.map] at h
  | ok a =>
    refine ⟨a, rfl, ?_⟩
    simpa [Except.map] using h.symm

/-! ### Lemmas about winning-number generation -/

theorem innerRetry_spec (keccak : List Nat → Nat) (soldCount cnt : Nat) :
    ∀ (rem attempts seed t : Nat) (picked : List Nat),
    (innerRetry keccak soldCount cnt rem attempts seed t picked).2.2 = picked ∨
    ∃ x, x ∉ picked ∧ 1 ≤ x ∧ x ≤ TICKETS_PER_SERIES ∧
      (innerRetry keccak soldCount cnt rem attempts seed t picked).2.2
        = picked ++ [x] := by
  intro rem
  induction rem with
  | zero => intro attempts seed t picked; left; rfl
  | succ rem ih =>
    intro attempts seed t picked
    simp only [innerRetry]
    split
    · split
      · exact ih _ _ _ _
      · rename_i hnew
        right
        refine ⟨keccak [seed, cnt, attempts, soldCount] % TICKETS_PER_SERIES + 1,
          ?_, ?_, ?_, rfl⟩
        · simpa using hnew
        · omega
        · have : keccak [seed, cnt, attempts, soldCount] % TICKETS_PER_SERIES
              < TICKETS_PER_SERIES := Nat.mod_lt _ (by simp [TICKETS_PER_SERIES])
          omega
    · left; rfl

theorem genLoop_sound (keccak : List Nat → Nat) (soldCount : Nat) :
    ∀ (fuel : Nat) (seed : Nat) (picked ws : List Nat),
    picked.Nodup → (∀ n ∈ picked, 1 ≤ n ∧ n ≤ TICKETS_PER_SERIES) →
    picked.length ≤ WINNING_TICKETS_COUNT →
    genLoop keccak soldCount fuel seed picked = some ws →
    ws.length = WINNING_TICKETS_COUNT ∧ ws.Nodup ∧
    ∀ n ∈ ws, 1 ≤ n ∧ n ≤ TICKETS_PER_SERIES := by
  intro fuel
  induction fuel with
  | zero => intro seed picked ws _ _ _ h; cases h
  | succ fuel ih =>
    intro seed picked ws hnd hrange hlen h
    simp only [genLoop] at h
    split at h
    · rename_i hfull
      cases h
      exact ⟨by omega, hnd, hrange⟩
    · rename_i hshort
      have hlt : picked.length < WINNING_TICKETS_COUNT := by omega
      have ht1 : 1 ≤ keccak [seed, picked.length] % TICKETS_PER_SERIES + 1 ∧
          keccak [seed, picked.length] % TICKETS_PER_SERIES + 1
            ≤ TICKETS_PER_SERIES := by
        have : keccak [seed, picked.length] % TICKETS_PER_SERIES
            < TICKETS_PER_SERIES := Nat.mod_lt _ (by simp [TICKETS_PER_SERIES])
        omega
      set t1 := keccak [seed, picked.length] % TICKETS_PER_SERIES + 1 with ht1def
      set picked1 := if picked.contains t1 then picked else picked ++ [t1]
        with hp1def
      have hp1nd : picked1.Nodup := by
        rw [hp1def]
        split
        · exact hnd
        · rename_i hnc
          have hnc' : t1 ∉ picked := by simpa using hnc
          have := List.Nodup.concat hnc' hnd
          rwa [List.concat_eq_append] at this
      have hp1range : ∀ n ∈ picked1, 1 ≤ n ∧ n ≤ TICKETS_PER_SERIES := by
        rw [hp1def]
        split
        · exact hrange
        · intro n hn
          rcases List.mem_append.mp hn with hn | hn
          · exact hrange n hn
          · simp only [List.mem_singleton] at hn
            subst hn; exact ht1
      have hp1len : picked1.length ≤ WINNING_TICKETS_COUNT := by
        rw [hp1def]
        split
        · omega
        · simp only [List.length_append, List.length_singleton]; omega
      split at h
      · rename_i hstill
        rcases innerRetry_spec keccak soldCount picked1.length 200 0
          (keccak [seed, picked.length]) t1 picked1 with hsame | ⟨x, hx, hx1, hx2, hxe⟩
        · rw [hsame] at h
          exact ih _ _ _ hp1nd hp1range hp1len h
        · rw [hxe] at h
          refine ih _ _ _ ?_ ?_ ?_ h
          · have := List.Nodup.concat hx hp1nd
            rwa [List.concat_eq_append] at this
          · intro n hn
            rcases List.mem_append.mp hn with hn | hn
            · exact hp1range n hn
            · simp only [List.mem_singleton] at hn
              subst hn; exact ⟨hx1, hx2⟩
          · simp only [List.length_append, List.length_singleton]; omega
      · exact ih _ _ _ hp1nd hp1range hp1len h

theorem generateWinningNumbers_sound {keccak : List Nat → Nat}
    {randomSeed soldCount fuel : Nat} {ws : List Nat}
    (h : generateWinningNumbers keccak randomSeed soldCount fuel = some ws) :
    ws.length = WINNING_TICKETS_COUNT ∧ ws.Nodup ∧
    ∀ n ∈ ws, 1 ≤ n ∧ n ≤ TICKETS_PER_SERIES :=
  genLoop_sound keccak soldCount fuel randomSeed [] ws (by simp) (by simp)
    (by simp [WINNING_TICKETS_COUNT]) h

/-! ### Characterization of a successful `executeDraw` -/

theorem executeDraw_ok_spec {keccak : List Nat → Nat}
    {bh ts prevrandao : Nat} {sender : Addr} {seriesId : Nat}
    {s s' : LotteryState} {fuel : Nat}
    (h : executeDraw keccak bh ts prevrandao sender seriesId s fuel = .ok s') :
    sender = s.owner ∧ 1 ≤ seriesId ∧ seriesId ≤ s.totalSeriesCount ∧
    DRAW_THRESHOLD ≤ (s.seriesInfo seriesId).ticketsSold ∧
    (s.seriesInfo seriesId).drawExecuted = false ∧
    ∃ ws, generateWinningNumbers keccak
        (keccak [bh, ts, prevrandao, sender, seriesId,
          (s.seriesInfo seriesId).ticketsSold])
        (s.seriesInfo seriesId).ticketsSold fuel = some ws ∧
      s' = { s with
        seriesInfo := Function.update s.seriesInfo seriesId
          { s.seriesInfo seriesId with
            drawRandomSeed := keccak [bh, ts, prevrandao, sender, seriesId,
              (s.seriesInfo seriesId).ticketsSold]
            winningTicketNumbers := ws
            drawExecuted := true } } := by
  simp only [executeDraw] at h
  split at h
  · cases h
  · rename_i hsender
    split at h
    · cases h
    · rename_i hsid
      split at h
      · cases h
      · rename_i hsold
        split at h
        · cases h
        · rename_i hdrawn
          split at h
          · cases h
          · rename_i ws hgen
            cases h
            push_neg at hsender hsid
            refine ⟨hsender, by omega, by omega, by omega, ?_, ws, hgen, rfl⟩
            simpa using hdrawn

/-! ### Lemmas about reward distribution -/

theorem collectWinners_ok_sound {s : LotteryState} {seriesId : Nat} :
    ∀ {ns : List Nat} {acc ws : List Addr},
    collectWinners s seriesId ns acc = .ok ws →
    ws = acc ++ (ns.map (fun n => s.ticketOwners (ticketId seriesId n))).filter
      (fun a => a ≠ 0) := by
  intro ns
  induction ns with
  | nil =>
    intro acc ws h
    simp only [collectWinners] at h
    cases h
    simp
  | cons n rest ih =>
    intro acc ws h
    simp only [collectWinners] at h
    split at h
    · rename_i ho
      split at h
      · have hrec := ih h
        subst hrec
        simp [List.filter_cons, ho]
      · cases h
    · rename_i ho
      have hrec := ih h
      subst hrec
      push_neg at ho
      simp [List.filter_cons, ho]

theorem payWinners_some_spec {T : Type} {tok : TokenOps T} {self : Addr}
    {rpw : Nat} :
    ∀ {ws : List Addr} {t t' : T} {log : List (Addr × Nat)},
    payWinners tok self rpw ws t = some (t', log) →
    (rpw = 0 → log = []) ∧
    ((∀ w ∈ ws, w ≠ 0) → 0 < rpw → log = ws.map (fun w => (w, rpw))) := by
  intro ws
  induction ws with
  | nil =>
    intro t t' log h
    simp only [payWinners] at h
    cases h
    simp
  | cons w rest ih =>
    intro t t' log h
    simp only [payWinners] at h
    split at h
    · rename_i hcond
      split at h
      · cases h
      · rename_i t1 htr
        split at h
        · cases h
        · rename_i t2 log' hrec
          cases h
          refine ⟨fun h0 => absurd hcond.2 (by omega), fun hall hpos => ?_⟩
          rw [(ih hrec).2 (fun x hx => hall x (List.mem_cons_of_mem _ hx)) hpos]
          simp
    · rename_i hcond
      have hrec := ih h
      refine ⟨hrec.1, fun hall hpos => ?_⟩
      exact absurd ⟨hall w (List.mem_cons_self _ _), hpos⟩ hcond

theorem distributeRewardsCore_ok_spec {T : Type} {tok : TokenOps T}
    {self sender : Addr} {seriesId : Nat} {s s' : LotteryState} {t t' : T}
    {log : List (Addr × Nat)}
    (h : distributeRewardsCore tok self sender seriesId s t
      = .ok (s', t', log)) :
    sender = s.owner ∧ 1 ≤ seriesId ∧ seriesId ≤ s.totalSeriesCount ∧
    (s.seriesInfo seriesId).drawExecuted = true ∧
    s.rewardsDistributed seriesId = false ∧
    s' = { s with rewardsDistributed :=
      Function.update s.rewardsDistributed seriesId true } ∧
    ∃ winners, collectWinners s seriesId
        (s.seriesInfo seriesId).winningTicketNumbers [] = .ok winners ∧
      winners ≠ [] ∧
      payWinners tok self
        (if tok.balanceOf t self
            < (s.seriesInfo seriesId).ticketsSold * s.ticketPrice
          then tok.balanceOf t self / WINNING_TICKETS_COUNT
          else s.rewardPerUser * 10 ^ 18) winners t = some (t', log) := by
  simp only [distributeRewardsCore] at h
  split at h
  · cases h
  rename_i hsender
  split at h
  · cases h
  rename_i hsid
  split at h
  · cases h
  rename_i hdrawn
  split at h
  · cases h
  rename_i hdist
  split at h
  · cases h
  rename_i winners hcw
  split at h
  · cases h
  rename_i hwlen
  generalize hrpw : (if tok.balanceOf t self
      < (s.seriesInfo seriesId).ticketsSold * s.ticketPrice
    then tok.balanceOf t self / WINNING_TICKETS_COUNT
    else s.rewardPerUser * 10 ^ 18) = rpw at h
  cases hpay : payWinners tok self rpw winners t with
  | none => rw [hpay] at h; cases h
  | some q =>
    obtain ⟨t2, log2⟩ := q
    rw [hpay] at h
    cases h
    push_neg at hsender hsid
    refine ⟨hsender, by omega, by omega, ?_, ?_, rfl, winners, hcw, ?_, ?_⟩
    · simpa using hdrawn
    · simpa using hdist
    · intro he
      exact hwlen (by simp [he])
    · exact hpay

/-! ### Invariant preservation over transactions -/

theorem step_preserves_good {T : Type} {keccak : List Nat → Nat}
    {tok : TokenOps T} {self : Addr} {op : Op} {w w' : LotteryState × T}
    (h : step keccak tok self op w = .ok w') (hg : GoodState w.1) :
    GoodState w'.1 := by
  obtain ⟨s, t⟩ := w
  obtain ⟨s', t'⟩ := w'
  obtain ⟨hr, hs⟩ := hg
  cases op with
  | setTicketPrice sender p =>
    obtain ⟨s1, h1, h2⟩ := exceptMap_ok h
    simp only [setTicketPrice] at h1
    split at h1
    · cases h1
    · cases h1
      simp only [Prod.mk.injEq] at h2
      obtain ⟨h2a, h2b⟩ := h2
      subst h2a
      exact ⟨hr, hs⟩
  | setReward sender r =>
    obtain ⟨s1, h1, h2⟩ := exceptMap_ok h
    simp only [setReward] at h1
    split at h1
    · cases h1
    · cases h1
      simp only [Prod.mk.injEq] at h2
      obtain ⟨h2a, h2b⟩ := h2
      subst h2a
      exact ⟨hr, hs⟩
  | transferOwnership sender newOwner =>
    obtain ⟨s1, h1, h2⟩ := exceptMap_ok h
    simp only [transferOwnership] at h1
    split at h1
    · cases h1
    · split at h1
      · cases h1
      · cases h1
        simp only [Prod.mk.injEq] at h2
        obtain ⟨h2a, h2b⟩ := h2
        subst h2a
        exact ⟨hr, hs⟩
  | transferFunds sender dest amount =>
    simp only [step, transferFunds] at h
    split at h
    · cases h
    · split at h
      · cases h
      · split at h
        · cases h
        · cases h
          exact ⟨hr, hs⟩
  | generateSeries sender =>
    obtain ⟨s1, h1, h2⟩ := exceptMap_ok h
    simp only [generateSeries] at h1
    split at h1
    · cases h1
    · cases h1
      simp only [Prod.mk.injEq] at h2
      obtain ⟨h2a, h2b⟩ := h2
      subst h2a
      refine ⟨hr, fun sid => ?_⟩
      show (Function.update s.seriesInfo (s.totalSeriesCount + 1) _ sid).ticketsSold
        ≤ (Function.update s.seriesInfo (s.totalSeriesCount + 1) _ sid).totalTickets
      by_cases hc : sid = s.totalSeriesCount + 1
      · subst hc
        rw [Function.update_same]
        simp [TICKETS_PER_SERIES]
      · rw [Function.update_noteq hc]
        exact hs sid
  | executeDraw sender seriesId bh ts pr fuel =>
    obtain ⟨s1, h1, h2⟩ := exceptMap_ok h
    simp only [Prod.mk.injEq] at h2
    obtain ⟨h2a, h2b⟩ := h2
    subst h2a
    obtain ⟨_, _, _, _, _, ws, hgen, hseq⟩ := executeDraw_ok_spec h1
    subst hseq
    refine ⟨hr, fun sid => ?_⟩
    show (Function.update s.seriesInfo seriesId _ sid).ticketsSold
      ≤ (Function.update s.seriesInfo seriesId _ sid).totalTickets
    by_cases hc : sid = seriesId
    · subst hc
      rw [Function.update_same]
      exact hs sid
    · rw [Function.update_noteq hc]
      exact hs sid
  | distributeRewards sender seriesId =>
    obtain ⟨a, h1, h2⟩ := exceptMap_ok h
    obtain ⟨s1, t1, log⟩ := a
    simp only [Prod.mk.injEq] at h2
    obtain ⟨h2a, h2b⟩ := h2
    subst h2a
    obtain ⟨_, _, _, _, _, hseq, _⟩ := distributeRewardsCore_ok_spec h1
    subst hseq
    exact ⟨hr, hs⟩
  | buyTickets sender seriesId count =>
    simp only [step, buyTickets] at h
    split at h
    · cases h
    rename_i hc0
    split at h
    · cases h
    rename_i hsid
    split at h
    · cases h
    rename_i hdrawn
    split at h
    · cases h
    rename_i hrem
    obtain ⟨q1, q2, q3, q4, q5, q6, q7⟩ := completePurchase_ok_spec h
    refine ⟨by rw [q3]; exact hr, fun sid => ?_⟩
    rw [q7]
    by_cases hc : sid = seriesId
    · subst hc
      rw [Function.update_same]
      show (s.seriesInfo sid).ticketsSold + ((List.range count).map _).length
        ≤ (s.seriesInfo sid).totalTickets
      have := hs sid
      push_neg at hrem
      simp only [List.length_map, List.length_range]
      omega
    · rw [Function.update_noteq hc]
      exact hs sid
  | buyTicketsAt sender seriesId ns =>
    simp only [step, buyTicketsAt] at h
    split at h
    · cases h
    rename_i hc0
    split at h
    · cases h
    rename_i hsid
    split at h
    · cases h
    rename_i hdrawn
    split at h
    · cases h
    rename_i hrem
    split at h
    · cases h
    rename_i sanitized hval
    obtain ⟨hsan, _⟩ := validateTicketNumbers_ok_sound hval
    subst hsan
    obtain ⟨q1, q2, q3, q4, q5, q6, q7⟩ := completePurchase_ok_spec h
    refine ⟨by rw [q3]; exact hr, fun sid => ?_⟩
    rw [q7]
    by_cases hc : sid = seriesId
    · subst hc
      rw [Function.update_same]
      show (s.seriesInfo sid).ticketsSold + sanitized.length
        ≤ (s.seriesInfo sid).totalTickets
      have := hs sid
      push_neg at hrem
      omega
    · rw [Function.update_noteq hc]
      exact hs sid

theorem reachable_good {T : Type} {keccak : List Nat → Nat}
    {tok : TokenOps T} {self : Addr} {w : LotteryState × T}
    (h : Reachable keccak tok self w) : GoodState w.1 := by
  induction h with
  | init deployer t0 => exact ⟨rfl, fun _ => Nat.le_refl 0⟩
  | next op hw ih =>
    rename_i w1
    cases hstep : step keccak tok self op w1 with
    | error e => simpa [execTotal, hstep] using ih
    | ok w2 =>
      have : execTotal keccak tok self op w1 = w2 := by
        simp [execTotal, hstep]
      rw [this]
      exact step_preserves_good hstep ih

/-! ### Guard characterization of successful purchases -/

theorem buyTickets_ok_guards {T : Type} {tok : TokenOps T}
    {self sender : Addr} {seriesId count : Nat} {s : LotteryState} {t : T}
    {w : LotteryState × T}
    (h : buyTickets tok self sender seriesId count s t = .ok w) :
    count ≠ 0 ∧ 1 ≤ seriesId ∧ seriesId ≤ s.totalSeriesCount ∧
    (s.seriesInfo seriesId).drawExecuted = false ∧
    count ≤ (s.seriesInfo seriesId).totalTickets
      - (s.seriesInfo seriesId).ticketsSold := by
  simp only [buyTickets] at h
  split at h
  · cases h
  rename_i hc0
  split at h
  · cases h
  rename_i hsid
  split at h
  · cases h
  rename_i hdrawn
  split at h
  · cases h
  rename_i hrem
  push_neg at hsid hrem
  exact ⟨hc0, by omega, by omega, by simpa using hdrawn, hrem⟩

theorem buyTicketsAt_ok_guards {T : Type} {tok : TokenOps T}
    {self sender : Addr} {seriesId : Nat} {ns : List Nat} {s : LotteryState}
    {t : T} {w : LotteryState × T}
    (h : buyTicketsAt tok self sender seriesId ns s t = .ok w) :
    ns ≠ [] ∧ 1 ≤ seriesId ∧ seriesId ≤ s.totalSeriesCount ∧
    (s.seriesInfo seriesId).drawExecuted = false ∧
    ns.length ≤ (s.seriesInfo seriesId).totalTickets
      - (s.seriesInfo seriesId).ticketsSold ∧
    ∀ n ∈ ns, 1 ≤ n ∧ n ≤ (s.seriesInfo seriesId).totalTickets ∧
      s.ticketOwners (ticketId seriesId n) = 0 := by
  simp only [buyTicketsAt] at h
  split at h
  · cases h
  rename_i hc0
  split at h
  · cases h
  rename_i hsid
  split at h
  · cases h
  rename_i hdrawn
  split at h
  · cases h
  rename_i hrem
  split at h
  · cases h
  rename_i sanitized hval
  obtain ⟨hsan, _⟩ := validateTicketNumbers_ok_sound hval
  subst hsan
  push_neg at hsid hrem
  refine ⟨by simpa [List.length_eq_zero] using hc0, by omega, by omega,
    by simpa using hdrawn, hrem, ?_⟩
  intro n hn
  simp only [completePurchase] at h
  split at h
  · cases h
  rename_i s1 ids hmint
  obtain ⟨h1, h2, h3⟩ := mintTickets_ok_sound hmint n hn
  exact ⟨h1, h2, h3⟩

/-! ### C8: drawn series accept no further purchases -/

/-- C8: for every series with `drawExecuted = true`, every purchase attempt
(sequential or specific) is rejected with no state change. -/
theorem drawn_series_rejects_purchases {T : Type} (keccak : List Nat → Nat)
    (tok : TokenOps T) (self : Addr) (w : LotteryState × T)
    (sender : Addr) (seriesId : Nat)
    (hdrawn : (w.1.seriesInfo seriesId).drawExecuted = true) :
    (∀ count, (∃ e, step keccak tok self (.buyTickets sender seriesId count) w
        = .error e) ∧
      execTotal keccak tok self (.buyTickets sender seriesId count) w = w) ∧
    (∀ ns, (∃ e, step keccak tok self (.buyTicketsAt sender seriesId ns) w
        = .error e) ∧
      execTotal keccak tok self (.buyTicketsAt sender seriesId ns) w = w) := by
  obtain ⟨s, t⟩ := w
  constructor
  · intro count
    cases hres : buyTickets tok self sender seriesId count s t with
    | error e =>
      exact ⟨⟨e, hres⟩, by simp [execTotal, step, hres]⟩
    | ok w2 =>
      exfalso
      obtain ⟨_, _, _, hd, _⟩ := buyTickets_ok_guards hres
      simp [hd] at hdrawn
  · intro ns
    cases hres : buyTicketsAt tok self sender seriesId ns s t with
    | error e =>
      exact ⟨⟨e, hres⟩, by simp [execTotal, step, hres]⟩
    | ok w2 =>
      exfalso
      obtain ⟨_, _, _, hd, _⟩ := buyTicketsAt_ok_guards hres
      simp [hd] at hdrawn

/-- C8 witness: at the concrete drawn state `drawOutState`, both purchase
entry points reject and change nothing. -/
theorem drawn_series_rejects_purchases_witness :
    ((∃ e, step zeroHash freeToken 9 (.buyTickets 5 1 3) (drawOutState, ())
        = .error e) ∧
      execTotal zeroHash freeToken 9 (.buyTickets 5 1 3) (drawOutState, ())
        = (drawOutState, ())) ∧
    (∃ e, step zeroHash freeToken 9 (.buyTicketsAt 5 1 [7]) (drawOutState, ())
        = .error e) ∧
    execTotal zeroHash freeToken 9 (.buyTicketsAt 5 1 [7]) (drawOutState, ())
      = (drawOutState, ()) := by
  have h := drawn_series_rejects_purchases zeroHash freeToken 9
    (drawOutState, ()) 5 1 (by decide)
  exact ⟨h.1 3, h.2 [7]⟩

/-! ### C5: executeDraw is admin-only and one-shot -/

theorem executeDraw_error_of {keccak : List Nat → Nat} {bh ts prevrandao : Nat}
    {sender : Addr} {seriesId : Nat} {s : LotteryState} {fuel : Nat}
    (hcond : (s.seriesInfo seriesId).ticketsSold < DRAW_THRESHOLD ∨
      (s.seriesInfo seriesId).drawExecuted = true) :
    ∃ e, executeDraw keccak bh ts prevrandao sender seriesId s fuel
      = .error e := by
  cases hres : executeDraw keccak bh ts prevrandao sender seriesId s fuel with
  | error e => exact ⟨e, rfl⟩
  | ok s1 =>
    exfalso
    obtain ⟨_, _, _, hsold, hdrawn, _⟩ := executeDraw_ok_spec hres
    rcases hcond with hc | hc
    · simp only [DRAW_THRESHOLD] at hsold hc
      omega
    · simp [hc] at hdrawn

/-- C5: `executeDraw` is admin-only; it fails when `ticketsSold` is below the
90-ticket threshold or the draw was already executed; and a second call on a
freshly drawn series fails, leaving the stored winning numbers and random
seed untouched. -/
theorem executeDraw_one_shot {T : Type} (keccak : List Nat → Nat)
    (tok : TokenOps T) (self : Addr) :
    (∀ bh ts pr sender seriesId (s : LotteryState) fuel,
      sender ≠ s.owner →
      executeDraw keccak bh ts pr sender seriesId s fuel
        = .error .NotOwner) ∧
    (∀ bh ts pr sender seriesId (s : LotteryState) fuel,
      ((s.seriesInfo seriesId).ticketsSold < DRAW_THRESHOLD ∨
        (s.seriesInfo seriesId).drawExecuted = true) →
      ∃ e, executeDraw keccak bh ts pr sender seriesId s fuel = .error e) ∧
    (∀ bh ts pr sender seriesId (s s1 : LotteryState) fuel,
      executeDraw keccak bh ts pr sender seriesId s fuel = .ok s1 →
      ∀ bh2 ts2 pr2 sender2 fuel2 (t : T),
        (∃ e, executeDraw keccak bh2 ts2 pr2 sender2 seriesId s1 fuel2
          = .error e) ∧
        execTotal keccak tok self
          (.executeDraw sender2 seriesId bh2 ts2 pr2 fuel2) (s1, t)
          = (s1, t)) := by
  refine ⟨?_, ?_, ?_⟩
  · intro bh ts pr sender seriesId s fuel hsender
    simp only [executeDraw]
    rw [if_pos hsender]
  · intro bh ts pr sender seriesId s fuel hcond
    exact executeDraw_error_of hcond
  · intro bh ts pr sender seriesId s s1 fuel h1 bh2 ts2 pr2 sender2 fuel2 t
    obtain ⟨_, _, _, _, _, ws, hgen, hseq⟩ := executeDraw_ok_spec h1
    have hdrawn1 : (s1.seriesInfo seriesId).drawExecuted = true := by
      subst hseq
      show (Function.update s.seriesInfo seriesId _ seriesId).drawExecuted = true
      rw [Function.update_same]
    obtain ⟨e, he⟩ :=
      @executeDraw_error_of keccak bh2 ts2 pr2 sender2 seriesId s1 fuel2
        (Or.inr hdrawn1)
    exact ⟨⟨e, he⟩, by simp [execTotal, step, he, Except.map]⟩

/-- C5 witness: a draw on the unsold fresh series fails; the demo draw on
`drawState` succeeds and a repeated draw fails without touching the state. -/
theorem executeDraw_one_shot_witness :
    (executeDraw zeroHash 0 0 0 3 1 drawState 11 = .error .NotOwner) ∧
    (∃ e, executeDraw zeroHash 0 0 0 1 1 freshW.1 11 = .error e) ∧
    (∃ e, executeDraw demoHash 5 6 7 7 1 drawOutState 11 = .error e) ∧
    execTotal demoHash freeToken 9 (.executeDraw 7 1 5 6 7 11)
      (drawOutState, ()) = (drawOutState, ()) := by
  have h := executeDraw_one_shot demoHash freeToken 9
  have h3 := h.2.2 0 0 0 7 1 drawState drawOutState 11 rfl 5 6 7 7 11 ()
  refine ⟨?_, ?_, h3.1, h3.2⟩
  · exact (executeDraw_one_shot zeroHash freeToken 9).1 0 0 0 3 1 drawState 11
      (by decide)
  · exact (executeDraw_one_shot zeroHash freeToken 9).2.1 0 0 0 1 1 freshW.1 11
      (Or.inl (by decide))

/-! ### C6: distributeRewards is admin-only and one-shot -/

/-- C6: `distributeRewards` is admin-only; calling it before the draw is
rejected with `DrawNotExecuted` and no state change; calling it again on an
already-settled series fails with no state change and no token transfer. -/
theorem distributeRewards_one_shot {T : Type} (keccak : List Nat → Nat)
    (tok : TokenOps T) (self : Addr) :
    (∀ sender seriesId (s : LotteryState) (t : T), sender ≠ s.owner →
      distributeRewardsCore tok self sender seriesId s t
        = .error .NotOwner) ∧
    (∀ sender seriesId (s : LotteryState) (t : T),
      sender = s.owner → 1 ≤ seriesId → seriesId ≤ s.totalSeriesCount →
      (s.seriesInfo seriesId).drawExecuted = false →
      distributeRewardsCore tok self sender seriesId s t
        = .error (.DrawNotExecuted seriesId) ∧
      execTotal keccak tok self (.distributeRewards sender seriesId) (s, t)
        = (s, t)) ∧
    (∀ sender seriesId (s : LotteryState) (t : T),
      s.rewardsDistributed seriesId = true →
      (∃ e, distributeRewardsCore tok self sender seriesId s t = .error e) ∧
      execTotal keccak tok self (.distributeRewards sender seriesId) (s, t)
        = (s, t)) := by
  refine ⟨?_, ?_, ?_⟩
  · intro sender seriesId s t hsender
    simp only [distributeRewardsCore]
    rw [if_pos hsender]
  · intro sender seriesId s t hsender hs1 hs2 hdrawn
    have herr : distributeRewardsCore tok self sender seriesId s t
        = .error (.DrawNotExecuted seriesId) := by
      simp only [distributeRewardsCore]
      rw [if_neg (by simp [hsender]), if_neg (by omega), if_pos hdrawn]
    exact ⟨herr, by simp [execTotal, step, herr, Except.map]⟩
  · intro sender seriesId s t hdist
    have herr : ∃ e, distributeRewardsCore tok self sender seriesId s t
        = .error e := by
      cases hres : distributeRewardsCore tok self sender seriesId s t with
      | error e => exact ⟨e, rfl⟩
      | ok r =>
        exfalso
        obtain ⟨s', t', log⟩ := r
        obtain ⟨_, _, _, _, hnd, _⟩ := distributeRewardsCore_ok_spec hres
        simp [hdist] at hnd
      
    obtain ⟨e, he⟩ := herr
    exact ⟨⟨e, he⟩, by simp [execTotal, step, he, Except.map]⟩

/-- C6 witness: not-admin call, too-early call and repeated call all fail on
the concrete demo states, with no state change. -/
theorem distributeRewards_one_shot_witness :
    (distributeRewardsCore natToken 9 3 1 distState distTok
      = .error .NotOwner) ∧
    (distributeRewardsCore natToken 9 7 1 drawState distTok
      = .error (.DrawNotExecuted 1)) ∧
    execTotal zeroHash natToken 9 (.distributeRewards 7 1) (drawState, distTok)
      = (drawState, distTok) ∧
    (∃ e, distributeRewardsCore natToken 9 1 1 distDoneState distTok
      = .error e) ∧
    execTotal zeroHash natToken 9 (.distributeRewards 1 1)
      (distDoneState, distTok) = (distDoneState, distTok) := by
  have h := distributeRewards_one_shot zeroHash natToken 9
  have h2 := h.2.1 7 1 drawState distTok (by decide) (by decide) (by decide)
    (by decide)
  have h3 := h.2.2 1 1 distDoneState distTok (by decide)
  exact ⟨h.1 3 1 distState distTok (by decide), h2.1, h2.2, h3.1, h3.2⟩

/-! ### C10: rewardPerUser is the constant 1 -/

/-- C10: in every reachable state `rewardPerUser` is still `1`, so the
nominal per-winner reward is `1 * 10^18`; the admin `setReward` call writes
its argument into `ticketPrice` and leaves `rewardPerUser` at `1`. -/
theorem rewardPerUser_constant {T : Type} {keccak : List Nat → Nat}
    {tok : TokenOps T} {self : Addr} {w : LotteryState × T}
    (h : Reachable keccak tok self w) :
    w.1.rewardPerUser = 1 ∧
    w.1.rewardPerUser * 10 ^ 18 = 10 ^ 18 ∧
    ∀ r, step keccak tok self (.setReward w.1.owner r) w
        = .ok ({ w.1 with ticketPrice := r }, w.2) ∧
      ({ w.1 with ticketPrice := r } : LotteryState).rewardPerUser = 1 := by
  have h1 := (reachable_good h).1
  refine ⟨h1, by rw [h1]; ring, fun r => ⟨?_, h1⟩⟩
  simp [step, setReward, Except.map]

/-- C10 witness: at the deployment state, `rewardPerUser = 1` and a
`setReward 5` call only changes `ticketPrice`. -/
theorem rewardPerUser_constant_witness :
    (initState 1, ()).1.rewardPerUser = 1 ∧
    (initState 1, ()).1.rewardPerUser * 10 ^ 18 = 10 ^ 18 ∧
    ∀ r, step zeroHash freeToken 9 (.setReward (initState 1, ()).1.owner r)
        (initState 1, ())
        = .ok ({ (initState 1, ()).1 with ticketPrice := r }, (initState 1, ()).2) ∧
      ({ (initState 1, ()).1 with ticketPrice := r } : LotteryState).rewardPerUser
        = 1 :=
  @rewardPerUser_constant Unit zeroHash freeToken 9 (initState 1, ())
    (Reachable.init 1 ())

/-! ### C4: a successful draw commits 10 distinct in-range numbers -/

/-- C4: every successful `executeDraw` commits exactly
`WINNING_TICKETS_COUNT = 10` pairwise-distinct winning numbers, all in
`[1, TICKETS_PER_SERIES] = [1, 100]`, together with the derived random seed
and the `drawExecuted` flag, in one atomic state update. -/
theorem executeDraw_valid_commit {keccak : List Nat → Nat}
    {bh ts prevrandao : Nat} {sender : Addr} {seriesId : Nat}
    {s s' : LotteryState} {fuel : Nat}
    (h : executeDraw keccak bh ts prevrandao sender seriesId s fuel
      = .ok s') :
    (s'.seriesInfo seriesId).winningTicketNumbers.length
      = WINNING_TICKETS_COUNT ∧
    (s'.seriesInfo seriesId).winningTicketNumbers.Nodup ∧
    (∀ n ∈ (s'.seriesInfo seriesId).winningTicketNumbers,
      1 ≤ n ∧ n ≤ TICKETS_PER_SERIES) ∧
    (s'.seriesInfo seriesId).drawExecuted = true ∧
    (s'.seriesInfo seriesId).drawRandomSeed
      = keccak [bh, ts, prevrandao, sender, seriesId,
          (s.seriesInfo seriesId).ticketsSold] ∧
    TICKETS_PER_SERIES = 100 ∧ WINNING_TICKETS_COUNT = 10 := by
  obtain ⟨_, _, _, _, _, ws, hgen, hseq⟩ := executeDraw_ok_spec h
  obtain ⟨hlen, hnd, hrange⟩ := generateWinningNumbers_sound hgen
  subst hseq
  have hproj : (({ s with
      seriesInfo := Function.update s.seriesInfo seriesId
        { s.seriesInfo seriesId with
          drawRandomSeed := keccak [bh, ts, prevrandao, sender, seriesId,
            (s.seriesInfo seriesId).ticketsSold]
          winningTicketNumbers := ws
          drawExecuted := true } } : LotteryState).seriesInfo seriesId)
      = { s.seriesInfo seriesId with
          drawRandomSeed := keccak [bh, ts, prevrandao, sender, seriesId,
            (s.seriesInfo seriesId).ticketsSold]
          winningTicketNumbers := ws
          drawExecuted := true } := by
    show Function.update _ seriesId _ seriesId = _
    rw [Function.update_same]
  rw [hproj]
  exact ⟨hlen, hnd, hrange, rfl, rfl, rfl, rfl⟩

/-- C4 witness: the demo draw on `drawState` commits the numbers
`[1, ..., 10]`: exactly 10 distinct values in range, with seed and flag. -/
theorem executeDraw_valid_commit_witness :
    (drawOutState.seriesInfo 1).winningTicketNumbers.length
      = WINNING_TICKETS_COUNT ∧
    (drawOutState.seriesInfo 1).winningTicketNumbers.Nodup ∧
    (∀ n ∈ (drawOutState.seriesInfo 1).winningTicketNumbers,
      1 ≤ n ∧ n ≤ TICKETS_PER_SERIES) ∧
    (drawOutState.seriesInfo 1).drawExecuted = true ∧
    (drawOutState.seriesInfo 1).drawRandomSeed
      = demoHash [0, 0, 0, 7, 1, (drawState.seriesInfo 1).ticketsSold] ∧
    TICKETS_PER_SERIES = 100 ∧ WINNING_TICKETS_COUNT = 10 :=
  @executeDraw_valid_commit demoHash 0 0 0 7 1 drawState drawOutState 11 rfl

/-! ### C7: soldCount never exceeds capacity -/

/-- C7: in every reachable state, every series satisfies
`ticketsSold ≤ totalTickets` (and trivially `0 ≤ ticketsSold`); moreover any
purchase whose size exceeds the remaining capacity is rejected with
`ticketsSold` (and everything else) unchanged. -/
theorem soldCount_bounded {T : Type} {keccak : List Nat → Nat}
    {tok : TokenOps T} {self : Addr} {w : LotteryState × T}
    (h : Reachable keccak tok self w) :
    (∀ seriesId, (w.1.seriesInfo seriesId).ticketsSold
      ≤ (w.1.seriesInfo seriesId).totalTickets) ∧
    (∀ sender seriesId count,
      (w.1.seriesInfo seriesId).totalTickets
          - (w.1.seriesInfo seriesId).ticketsSold < count →
      (∃ e, step keccak tok self (.buyTickets sender seriesId count) w
        = .error e) ∧
      execTotal keccak tok self (.buyTickets sender seriesId count) w = w) ∧
    (∀ sender seriesId (ns : List Nat),
      (w.1.seriesInfo seriesId).totalTickets
          - (w.1.seriesInfo seriesId).ticketsSold < ns.length →
      (∃ e, step keccak tok self (.buyTicketsAt sender seriesId ns) w
        = .error e) ∧
      execTotal keccak tok self (.buyTicketsAt sender seriesId ns) w = w) := by
  refine ⟨(reachable_good h).2, ?_, ?_⟩
  · intro sender seriesId count hover
    obtain ⟨s, t⟩ := w
    cases hres : buyTickets tok self sender seriesId count s t with
    | error e => exact ⟨⟨e, hres⟩, by simp [execTotal, step, hres]⟩
    | ok w2 =>
      exfalso
      obtain ⟨_, _, _, _, hrem⟩ := buyTickets_ok_guards hres
      have hover' : (s.seriesInfo seriesId).totalTickets
          - (s.seriesInfo seriesId).ticketsSold < count := hover
      omega
  · intro sender seriesId ns hover
    obtain ⟨s, t⟩ := w
    cases hres : buyTicketsAt tok self sender seriesId ns s t with
    | error e => exact ⟨⟨e, hres⟩, by simp [execTotal, step, hres]⟩
    | ok w2 =>
      exfalso
      obtain ⟨_, _, _, _, hrem, _⟩ := buyTicketsAt_ok_guards hres
      have hover' : (s.seriesInfo seriesId).totalTickets
          - (s.seriesInfo seriesId).ticketsSold < ns.length := hover
      omega

/-- C7 witness: `freshW` (one series, nothing sold) is reachable; the bound
holds there and an oversized purchase of 101 tickets is rejected. -/
theorem soldCount_bounded_witness :
    (∀ seriesId, (freshW.1.seriesInfo seriesId).ticketsSold
      ≤ (freshW.1.seriesInfo seriesId).totalTickets) ∧
    ((∃ e, step zeroHash freeToken 9 (.buyTickets 5 1 101) freshW = .error e) ∧
      execTotal zeroHash freeToken 9 (.buyTickets 5 1 101) freshW = freshW) := by
  have hreach : Reachable zeroHash freeToken 9 freshW :=
    Reachable.next (.generateSeries 1) (Reachable.init 1 ())
  have h := soldCount_bounded hreach
  exact ⟨h.1, h.2.1 5 1 101 (by decide)⟩

/-! ### C3: underfunded distribution clamps to the available balance -/

/-- C3: when the escrowed balance is below `ticketsSold * ticketPrice`, a
successful `distributeRewards` pays every resolved winning ticket (one payout
per ticket, owners repeated) exactly `balance / WINNING_TICKETS_COUNT` — the
10 winning slots, not the distinct owners — and sets `rewardsDistributed`;
when that quotient is zero no transfer is made but the series still
settles. -/
theorem distributeRewards_underfunded {T : Type} {tok : TokenOps T}
    {self sender : Addr} {seriesId : Nat} {s s' : LotteryState} {t t' : T}
    {log : List (Addr × Nat)}
    (hok : distributeRewardsCore tok self sender seriesId s t
      = .ok (s', t', log))
    (hunder : tok.balanceOf t self
      < (s.seriesInfo seriesId).ticketsSold * s.ticketPrice) :
    (s.seriesInfo seriesId).drawExecuted = true ∧
    s.rewardsDistributed seriesId = false ∧
    resolvedWinners s seriesId ≠ [] ∧
    s'.rewardsDistributed seriesId = true ∧
    log = if tok.balanceOf t self / WINNING_TICKETS_COUNT = 0 then []
      else (resolvedWinners s seriesId).map
        (fun a => (a, tok.balanceOf t self / WINNING_TICKETS_COUNT)) := by
  obtain ⟨hsender, h1, h2, hdrawn, hdist, hseq, winners, hcw, hwne, hpay⟩ :=
    distributeRewardsCore_ok_spec hok
  have hwres : winners = resolvedWinners s seriesId := by
    have hx := collectWinners_ok_sound hcw
    simpa [resolvedWinners] using hx
  rw [if_pos hunder] at hpay
  obtain ⟨hz, hp⟩ := payWinners_some_spec hpay
  refine ⟨hdrawn, hdist, by rw [← hwres]; exact hwne, ?_, ?_⟩
  · subst hseq
    show Function.update s.rewardsDistributed seriesId true seriesId = true
    rw [Function.update_same]
  · by_cases h0 : tok.balanceOf t self / WINNING_TICKETS_COUNT = 0
    · rw [if_pos h0]
      exact hz h0
    · rw [if_neg h0, ← hwres]
      refine hp ?_ (Nat.pos_of_ne_zero h0)
      intro a ha
      rw [hwres] at ha
      simp only [resolvedWinners, List.mem_filter] at ha
      simpa using ha.2

/-- C3 witness: `distState` with a 50-wei escrow (nominal pool
`90 * 0.11e18`): the single resolved winner (address 2, holder of winning
ticket 5) is paid `50 / 10 = 5`, and the series settles. -/
theorem distributeRewards_underfunded_witness :
    distOutState.rewardsDistributed 1 = true ∧ distOutLog = [(2, 5)] := by
  have hok : distributeRewardsCore natToken 9 1 1 distState distTok
      = .ok (distOutState, distOutTok, distOutLog) := rfl
  have h := distributeRewards_underfunded hok (by decide)
  refine ⟨h.2.2.2.1, ?_⟩
  rw [h.2.2.2.2]
  decide

/-! ### C2: failed purchases have no effect -/

theorem completePurchase_ok_payment {T : Type} {tok : TokenOps T}
    {self buyer : Addr} {seriesId : Nat} {ns : List Nat} {s s' : LotteryState}
    {t t' : T}
    (h : completePurchase tok self buyer seriesId ns s t = .ok (s', t')) :
    collectPayment tok self buyer (s.ticketPrice * ns.length) t = some t' := by
  simp only [completePurchase] at h
  split at h
  · cases h
  · split at h
    · cases h
    · rename_i t2 hpay
      cases h
      exact hpay

theorem buyTickets_ok_payment {T : Type} {tok : TokenOps T}
    {self sender : Addr} {seriesId count : Nat} {s s' : LotteryState}
    {t t' : T}
    (h : buyTickets tok self sender seriesId count s t = .ok (s', t')) :
    collectPayment tok self sender (s.ticketPrice * count) t = some t' := by
  simp only [buyTickets] at h
  split at h
  · cases h
  split at h
  · cases h
  split at h
  · cases h
  split at h
  · cases h
  have hpay := completePurchase_ok_payment h
  simpa [List.length_map, List.length_range] using hpay

theorem buyTicketsAt_ok_payment {T : Type} {tok : TokenOps T}
    {self sender : Addr} {seriesId : Nat} {ns : List Nat}
    {s s' : LotteryState} {t t' : T}
    (h : buyTicketsAt tok self sender seriesId ns s t = .ok (s', t')) :
    collectPayment tok self sender (s.ticketPrice * ns.length) t
      = some t' := by
  simp only [buyTicketsAt] at h
  split at h
  · cases h
  split at h
  · cases h
  split at h
  · cases h
  split at h
  · cases h
  split at h
  · cases h
  rename_i sanitized hval
  obtain ⟨hsan, _⟩ := validateTicketNumbers_ok_sound hval
  subst hsan
  exact completePurchase_ok_payment h

/-- C2: a `buyTicketsAt` call naming an out-of-range or already-owned number
fails with no effect at all, and any purchase (sequential or specific) whose
positive `transferFrom` fails also reverts completely: no mint, no counter
change, no owner-index entry — the world is exactly the pre-state. -/
theorem failed_purchase_no_effect {T : Type} (keccak : List Nat → Nat)
    (tok : TokenOps T) (self sender : Addr) (seriesId : Nat)
    (w : LotteryState × T) :
    (∀ ns : List Nat,
      (∃ n ∈ ns, n = 0 ∨ n > (w.1.seriesInfo seriesId).totalTickets ∨
        w.1.ticketOwners (ticketId seriesId n) ≠ 0) →
      (∃ e, step keccak tok self (.buyTicketsAt sender seriesId ns) w
        = .error e) ∧
      execTotal keccak tok self (.buyTicketsAt sender seriesId ns) w = w) ∧
    (∀ count, 0 < w.1.ticketPrice * count →
      tok.transfer w.2 sender self (w.1.ticketPrice * count) = none →
      (∃ e, step keccak tok self (.buyTickets sender seriesId count) w
        = .error e) ∧
      execTotal keccak tok self (.buyTickets sender seriesId count) w = w) ∧
    (∀ ns : List Nat, 0 < w.1.ticketPrice * ns.length →
      tok.transfer w.2 sender self (w.1.ticketPrice * ns.length) = none →
      (∃ e, step keccak tok self (.buyTicketsAt sender seriesId ns) w
        = .error e) ∧
      execTotal keccak tok self (.buyTicketsAt sender seriesId ns) w = w) := by
  obtain ⟨s, t⟩ := w
  refine ⟨?_, ?_, ?_⟩
  · intro ns hbad
    cases hres : buyTicketsAt tok self sender seriesId ns s t with
    | error e => exact ⟨⟨e, hres⟩, by simp [execTotal, step, hres]⟩
    | ok w2 =>
      exfalso
      obtain ⟨_, _, _, _, _, hgood⟩ := buyTicketsAt_ok_guards hres
      obtain ⟨n, hn, hbad⟩ := hbad
      obtain ⟨g1, g2, g3⟩ := hgood n hn
      have g2' : n ≤ (s.seriesInfo seriesId).totalTickets := g2
      have g3' : s.ticketOwners (ticketId seriesId n) = 0 := g3
      rcases hbad with hb | hb | hb
      · omega
      · have hb' : n > (s.seriesInfo seriesId).totalTickets := hb
        omega
      · exact hb g3'
  · intro count hpos htr
    cases hres : buyTickets tok self sender seriesId count s t with
    | error e => exact ⟨⟨e, hres⟩, by simp [execTotal, step, hres]⟩
    | ok w2 =>
      exfalso
      obtain ⟨s2, t2⟩ := w2
      have hpay := buyTickets_ok_payment hres
      have hpos' : 0 < s.ticketPrice * count := hpos
      have htr' : tok.transfer t sender self (s.ticketPrice * count)
          = none := htr
      rw [collectPayment, if_pos hpos', htr'] at hpay
      cases hpay
  · intro ns hpos htr
    cases hres : buyTicketsAt tok self sender seriesId ns s t with
    | error e => exact ⟨⟨e, hres⟩, by simp [execTotal, step, hres]⟩
    | ok w2 =>
      exfalso
      obtain ⟨s2, t2⟩ := w2
      have hpay := buyTicketsAt_ok_payment hres
      have hpos' : 0 < s.ticketPrice * ns.length := hpos
      have htr' : tok.transfer t sender self (s.ticketPrice * ns.length)
          = none := htr
      rw [collectPayment, if_pos hpos', htr'] at hpay
      cases hpay

/-- C2 witness: buying the already-owned ticket 2 of `cxW` changes nothing,
and purchases whose payment transfer fails (a buyer with zero balance)
change nothing either. -/
theorem failed_purchase_no_effect_witness :
    ((∃ e, step zeroHash freeToken 9 (.buyTicketsAt 6 1 [2]) cxW = .error e) ∧
      execTotal zeroHash freeToken 9 (.buyTicketsAt 6 1 [2]) cxW = cxW) ∧
    ((∃ e, step zeroHash natToken 9 (.buyTickets 5 1 1) (freshW.1, emptyTok)
        = .error e) ∧
      execTotal zeroHash natToken 9 (.buyTickets 5 1 1) (freshW.1, emptyTok)
        = (freshW.1, emptyTok)) ∧
    (∃ e, step zeroHash natToken 9 (.buyTicketsAt 5 1 [3]) (freshW.1, emptyTok)
        = .error e) ∧
    execTotal zeroHash natToken 9 (.buyTicketsAt 5 1 [3]) (freshW.1, emptyTok)
      = (freshW.1, emptyTok) := by
  have h1 := (failed_purchase_no_effect zeroHash freeToken 9 6 1 cxW).1 [2]
    (by decide)
  have h2 := (failed_purchase_no_effect zeroHash natToken 9 5 1
    (freshW.1, emptyTok)).2.1 1 (by decide) rfl
  have h3 := (failed_purchase_no_effect zeroHash natToken 9 5 1
    (freshW.1, emptyTok)).2.2 [3] (by decide) rfl
  exact ⟨h1, h2, ⟨h3.1, h3.2⟩⟩

/-! ### C1: sequential purchase -/

theorem completePurchase_ok_mint {T : Type} {tok : TokenOps T}
    {self buyer : Addr} {seriesId : Nat} {ns : List Nat}
    {s s' : LotteryState} {t t' : T}
    (h : completePurchase tok self buyer seriesId ns s t = .ok (s', t')) :
    ∃ s1 ids, mintTickets buyer seriesId (s.seriesInfo seriesId).totalTickets
        ns s = .ok (s1, ids) ∧
      s'.ticketOwners = s1.ticketOwners := by
  simp only [completePurchase] at h
  split at h
  · cases h
  · rename_i s1 ids hmint
    split at h
    · cases h
    · rename_i t2 hpay
      cases h
      exact ⟨s1, ids, hmint, rfl⟩

theorem completePurchase_ok_of {T : Type} {tok : TokenOps T}
    {self buyer : Addr} {seriesId : Nat} {ns : List Nat}
    {s s1 : LotteryState} {ids : List Nat} {t t' : T}
    (hmint : mintTickets buyer seriesId (s.seriesInfo seriesId).totalTickets
      ns s = .ok (s1, ids))
    (hpay : collectPayment tok self buyer (s.ticketPrice * ns.length) t
      = some t') :
    ∃ s', completePurchase tok self buyer seriesId ns s t = .ok (s', t') := by
  cases hres : completePurchase tok self buyer seriesId ns s t with
  | error e =>
    exfalso
    simp only [completePurchase, hmint, hpay] at hres
    cases hres
  | ok w2 =>
    obtain ⟨s2, t2⟩ := w2
    have hp2 := completePurchase_ok_payment hres
    rw [hpay] at hp2
    cases hp2
    exact ⟨s2, rfl⟩

/-- C1 counterexample: in `cxW`, series 1 exists, is not drawn, has 99 of its
100 tickets remaining, and payments always succeed (`freeToken`), so the
claim's preconditions for `buyTickets` with `count = 2` all hold — yet the
call reverts with `TicketAlreadySold 2`: the assigned consecutive numbers
are `soldCount+1 = 2` and `3`, and number 2 was already bought through
`buyTicketsAt`. -/
theorem buySequential_claim_counterexample :
    1 ≤ cxW.1.totalSeriesCount ∧
    (cxW.1.seriesInfo 1).drawExecuted = false ∧
    0 < 2 ∧
    2 ≤ (cxW.1.seriesInfo 1).totalTickets - (cxW.1.seriesInfo 1).ticketsSold ∧
    buyTickets freeToken 9 6 1 2 cxW.1 cxW.2
      = .error (.TicketAlreadySold 2) :=
  ⟨by decide, by decide, by decide, by decide, by rfl⟩

/-- C1 (amended): for every existing, not-drawn series and every `count` with
`0 < count ≤ remaining capacity`, **provided the `count` consecutive numbers
`soldCount+1, …, soldCount+count` are all currently unowned and the payment
transfer of `ticketPrice * count` succeeds**, `buyTickets` succeeds,
assigns exactly those consecutive numbers to the buyer (every other
ownership entry unchanged), and charges `totalCost = ticketPrice * count`. -/
theorem buySequential_ok {T : Type} (tok : TokenOps T) (self sender : Addr)
    (seriesId count : Nat) (s : LotteryState) (t t' : T)
    (hsid1 : 1 ≤ seriesId) (hsid2 : seriesId ≤ s.totalSeriesCount)
    (hdrawn : (s.seriesInfo seriesId).drawExecuted = false)
    (hcount : 0 < count)
    (hrem : count ≤ (s.seriesInfo seriesId).totalTickets
      - (s.seriesInfo seriesId).ticketsSold)
    (htot : (s.seriesInfo seriesId).totalTickets < 2 ^ 128)
    (hfree : ∀ i < count, s.ticketOwners
      (ticketId seriesId ((s.seriesInfo seriesId).ticketsSold + 1 + i)) = 0)
    (hpay : collectPayment tok self sender (s.ticketPrice * count) t
      = some t') :
    ∃ s', buyTickets tok self sender seriesId count s t = .ok (s', t') ∧
      (s'.seriesInfo seriesId).ticketsSold
        = (s.seriesInfo seriesId).ticketsSold + count ∧
      (∀ i < count, s'.ticketOwners
        (ticketId seriesId ((s.seriesInfo seriesId).ticketsSold + 1 + i))
          = sender) ∧
      (∀ k, (∀ i < count,
          k ≠ ticketId seriesId ((s.seriesInfo seriesId).ticketsSold + 1 + i)) →
        s'.ticketOwners k = s.ticketOwners k) ∧
      s'.ticketPrice = s.ticketPrice := by
  have hsold : (s.seriesInfo seriesId).ticketsSold + count
      ≤ (s.seriesInfo seriesId).totalTickets := by omega
  set ns := (List.range count).map
    (fun i => (s.seriesInfo seriesId).ticketsSold + 1 + i) with hns
  have hns_len : ns.length = count := by
    rw [hns]; simp
  have hrange : ∀ n ∈ ns, 1 ≤ n ∧ n ≤ (s.seriesInfo seriesId).totalTickets := by
    intro n hn
    simp only [hns, List.mem_map, List.mem_range] at hn
    obtain ⟨i, hi, rfl⟩ := hn
    show 1 ≤ (s.seriesInfo seriesId).ticketsSold + 1 + i ∧
      (s.seriesInfo seriesId).ticketsSold + 1 + i
        ≤ (s.seriesInfo seriesId).totalTickets
    omega
  have hfree' : ∀ n ∈ ns, s.ticketOwners (ticketId seriesId n) = 0 := by
    intro n hn
    simp only [hns, List.mem_map, List.mem_range] at hn
    obtain ⟨i, hi, rfl⟩ := hn
    exact hfree i hi
  have hnd : ns.Nodup := by
    rw [hns]
    refine List.Nodup.map ?_ (List.nodup_range count)
    intro a b hab
    simp only at hab
    omega
  obtain ⟨s1, hmint, hown, hni⟩ := mintTickets_ok_of htot ns s hrange hfree' hnd
  obtain ⟨s', hcp⟩ := completePurchase_ok_of hmint (by rw [hns_len]; exact hpay)
  have hbuyeq : buyTickets tok self sender seriesId count s t
      = completePurchase tok self sender seriesId ns s t := by
    simp only [buyTickets]
    rw [if_neg (by omega), if_neg (by omega), if_neg (by simp [hdrawn]),
      if_neg (by omega), hns]
  obtain ⟨q1, q2, q3, q4, q5, q6, q7⟩ := completePurchase_ok_spec hcp
  obtain ⟨s1', ids', hmint', howners⟩ := completePurchase_ok_mint hcp
  rw [hmint] at hmint'
  cases hmint'
  refine ⟨s', by rw [hbuyeq]; exact hcp, ?_, ?_, ?_, q2⟩
  · rw [q7, Function.update_same]
    show (s.seriesInfo seriesId).ticketsSold + ns.length
      = (s.seriesInfo seriesId).ticketsSold + count
    rw [hns_len]
  · intro i hi
    rw [howners]
    apply hown
    simp only [hns, List.mem_map, List.mem_range]
    exact ⟨i, hi, rfl⟩
  · intro k hk
    rw [howners]
    apply hni
    intro n hn
    simp only [hns, List.mem_map, List.mem_range] at hn
    obtain ⟨i, hi, rfl⟩ := hn
    exact hk i hi

/-- C1 (amended) witness: on the fresh series, a sequential purchase of two
tickets by address 5 succeeds and assigns exactly ticket numbers 1 and 2. -/
theorem buySequential_ok_witness :
    ∃ s', buyTickets freeToken 9 5 1 2 freshW.1 () = .ok (s', ()) ∧
      (s'.seriesInfo 1).ticketsSold = (freshW.1.seriesInfo 1).ticketsSold + 2 ∧
      (∀ i < 2, s'.ticketOwners
        (ticketId 1 ((freshW.1.seriesInfo 1).ticketsSold + 1 + i)) = 5) ∧
      (∀ k, (∀ i < 2,
          k ≠ ticketId 1 ((freshW.1.seriesInfo 1).ticketsSold + 1 + i)) →
        s'.ticketOwners k = freshW.1.ticketOwners k) ∧
      s'.ticketPrice = freshW.1.ticketPrice :=
  buySequential_ok freeToken 9 5 1 2 freshW.1 () () (by decide) (by decide)
    (by decide) (by decide) (by decide) (by decide) (by decide) rfl

/-! ### C9: the generation loop is not structurally bounded -/

theorem zeroHash_innerRetry :
    ∀ rem attempts, innerRetry zeroHash 0 1 rem attempts 0 1 [1]
      = (0, 1, [1]) := by
  intro rem
  induction rem with
  | zero => intro attempts; rfl
  | succ rem ih => intro attempts; exact ih (attempts + 1)

theorem zeroHash_genLoop :
    ∀ fuel, genLoop zeroHash 0 fuel 0 [1] = none := by
  intro fuel
  induction fuel with
  | zero => rfl
  | succ fuel ih =>
    show genLoop zeroHash 0 fuel
      (innerRetry zeroHash 0 1 200 0 0 1 [1]).1
      (innerRetry zeroHash 0 1 200 0 0 1 [1]).2.2 = none
    rw [zeroHash_innerRetry 200 0]
    exact ih

theorem zeroHash_generate (fuel : Nat) :
    generateWinningNumbers zeroHash 0 0 fuel = none := by
  cases fuel with
  | zero => rfl
  | succ fuel =>
    show genLoop zeroHash 0 fuel
      (innerRetry zeroHash 0 1 200 0 0 1 [1]).1
      (innerRetry zeroHash 0 1 200 0 0 1 [1]).2.2 = none
    rw [zeroHash_innerRetry 200 0]
    exact zeroHash_genLoop fuel

/-- C9 counterexample: winning-number generation does **not** terminate for
every hash source and seed: with the constant hash (`zeroHash`, which always
re-derives the already-used number 1) the generator finishes under no fuel
bound whatsoever — retry exhaustion re-enters the outer loop instead of
stopping fatally. -/
theorem generation_terminates_counterexample :
    ¬ ∀ (keccak : List Nat → Nat) (randomSeed soldCount : Nat),
      ∃ fuel, (generateWinningNumbers keccak randomSeed soldCount fuel).isSome
        = true := by
  intro h
  obtain ⟨fuel, hf⟩ := h zeroHash 0 0
  rw [zeroHash_generate fuel] at hf
  cases hf

/-- C9 (amended): each inner collision-retry burst makes at most 200 re-hash
attempts, but exhausting it is not fatal: the outer loop re-enters with a
fresh primary hash, so the search is not bounded as a whole.  With a hash
that always returns an already-used value (`zeroHash`) the generator never
terminates at any fuel; with a hash whose retry bursts all exhaust their 200
attempts but whose outer re-entries produce fresh numbers (`demoHash`) it
still completes, selecting `[1, …, 10]`. -/
theorem generation_retry_unbounded :
    (∀ fuel, generateWinningNumbers zeroHash 0 0 fuel = none) ∧
    innerRetry demoHash 0 1 200 0 0 1 [1] = (0, 1, [1]) ∧
    generateWinningNumbers demoHash 0 0 11
      = some [1, 2, 3, 4, 5, 6, 7, 8, 9, 10] :=
  ⟨zeroHash_generate, by decide, by decide⟩
